import Mathlib

/-!
Verification of the DB2 CLP output formatting tool (`fmt_db2_output.py`).

Lines are modelled as `List Char`.  Every function below is a direct
translation of the corresponding Python function; the top-level loop of
`main` is modelled by `scanAux` (driven by a fuel argument that is always
large enough, see `run`), and the final printing loop by `assemble`.
-/

/-- Python `str.isspace` on the ASCII whitespace characters (the only
whitespace that can appear in our inputs). -/
def isPySpace (c : Char) : Bool :=
  c = ' ' || c = '\t' || c = '\n' || c = '\r' || c = '\x0b' || c = '\x0c'

/-- Python `str.lstrip()`. -/
def pyLstrip (l : List Char) : List Char := l.dropWhile isPySpace

/-- Python `str.rstrip()`. -/
def pyRstrip (l : List Char) : List Char := (l.reverse.dropWhile isPySpace).reverse

/-- Python `str.strip()`. -/
def pyStrip (l : List Char) : List Char := pyRstrip (pyLstrip l)

/-- Python `str.ljust(w)` (pad with spaces on the right). -/
def ljust (l : List Char) (w : Nat) : List Char := l ++ List.replicate (w - l.length) ' '

/-- Python `str.rjust(w)` (pad with spaces on the left). -/
def rjust (l : List Char) (w : Nat) : List Char := List.replicate (w - l.length) ' ' ++ l

/-- Python `' '.join(parts)`. -/
def joinSpace (parts : List (List Char)) : List Char := List.intercalate [' '] parts

/-- Python `max(xs, default=0)` over natural numbers. -/
def maxD0 (l : List Nat) : Nat := l.foldr max 0

/-- `true` when the line does not end in a whitespace character. -/
def noTrailingSpace (l : List Char) : Bool :=
  match l.getLast? with
  | none => true
  | some c => !isPySpace c

/-- Detected column justification. -/
inductive Justification where
  | left
  | right
deriving DecidableEq, Repr

/-- `find_columns`, scanning state: current position and, when inside a run of
dashes, the run's start. -/
def findColumnsAux : List Char → Nat → Option Nat → List (Nat × Nat)
  | [], _, none => []
  | [], i, some s => [(s, i)]
  | c :: rest, i, none =>
      if c = '-' then findColumnsAux rest (i + 1) (some i)
      else findColumnsAux rest (i + 1) none
  | c :: rest, i, some s =>
      if c = '-' then findColumnsAux rest (i + 1) (some s)
      else (s, i) :: findColumnsAux rest (i + 1) none

/-- `find_columns`: maximal runs of `'-'` as half-open `(start, end)` spans. -/
def find_columns (dash_line : List Char) : List (Nat × Nat) :=
  findColumnsAux dash_line 0 none

/-- `find_gaps`: spans between consecutive column spans. -/
def find_gaps (columns : List (Nat × Nat)) : List (Nat × Nat) :=
  (columns.zip columns.tail).map fun p => (p.1.2, p.2.1)

/-- `is_valid_header_line`: every gap position that exists within the line
must hold a space. -/
def is_valid_header_line (line : List Char) (gaps : List (Nat × Nat)) : Bool :=
  gaps.all fun g =>
    (List.range' g.1 (min g.2 line.length - g.1)).all fun pos =>
      !(decide (pos < line.length) && (line.getD pos ' ' != ' '))

/-- `extract_value`: Python slice `line[start:min(end, len(line))]`, empty when
`start` is past the end of the line. -/
def extract_value (line : List Char) (start e : Nat) : List Char :=
  if start ≥ line.length then []
  else (line.drop start).take (min e line.length - start)

/-- `detect_justification`: first definitive per-cell signal wins
(`left_spaces = len(val) - len(val.lstrip())`,
`right_spaces = len(val) - len(val.rstrip())`, inlined). -/
def detect_justification : List (List Char) → Justification
  | [] => .left
  | val :: rest =>
      if (pyStrip val).isEmpty then detect_justification rest
      else if val.length - (pyLstrip val).length > 0 ∧ val.length - (pyRstrip val).length = 0 then
        .right
      else if val.length - (pyRstrip val).length > 0 ∧ val.length - (pyLstrip val).length = 0 then
        .left
      else if val.length - (pyLstrip val).length > val.length - (pyRstrip val).length then
        .right
      else detect_justification rest

/-- The walk of `collect_header_lines`, fuel `n` standing for candidate index
`n - 1`; produces the accepted indices in bottom-to-top order. -/
def collectHeaderAux (lines : List (List Char)) (gaps : List (Nat × Nat)) : Nat → List Nat
  | 0 => []
  | n + 1 =>
      let line := lines.getD n []
      if (pyStrip line).isEmpty then []
      else if is_valid_header_line line gaps then n :: collectHeaderAux lines gaps n
      else []

/-- `collect_header_lines`: header indices above the dash line, top-to-bottom. -/
def collect_header_lines (lines : List (List Char)) (dash_line_idx : Nat)
    (columns : List (Nat × Nat)) : List Nat :=
  (collectHeaderAux lines (find_gaps columns) dash_line_idx).reverse

/-- `extract_multiline_headers`: per column, the stripped header-cell text of
each header line. -/
def extract_multiline_headers (lines : List (List Char)) (header_indices : List Nat)
    (columns : List (Nat × Nat)) : List (List (List Char)) :=
  columns.map fun c =>
    header_indices.map fun idx => pyStrip (extract_value (lines.getD idx []) c.1 c.2)

/-- The `new_widths` computation of `process_table`:
`max(max_header_line_len, max_val_len)` per column. -/
def new_widths (header_texts : List (List (List Char)))
    (stripped_values : List (List (List Char))) (ncols : Nat) : List Nat :=
  (List.range ncols).map fun c =>
    max (maxD0 ((header_texts.getD c []).map List.length))
      (maxD0 (stripped_values.map fun row => (row.getD c []).length))

/-- `process_table`: render the reformatted table block. -/
def process_table (lines : List (List Char)) (header_indices : List Nat)
    (dash_line_idx : Nat) (data_lines : List (List Char))
    (columns : List (Nat × Nat)) : List (List Char) :=
  let header_texts := extract_multiline_headers lines header_indices columns
  let raw_values := data_lines.map fun line => columns.map fun c => extract_value line c.1 c.2
  let stripped_values := raw_values.map fun row => row.map pyStrip
  let justifications := (List.range columns.length).map fun c =>
    detect_justification (raw_values.map fun row => row.getD c [])
  let widths := new_widths header_texts stripped_values columns.length
  let headerLines := (List.range header_indices.length).map fun li =>
    pyRstrip (joinSpace ((List.range columns.length).map fun c =>
      ljust ((header_texts.getD c []).getD li []) (widths.getD c 0)))
  let dashLine := joinSpace ((List.range columns.length).map fun c =>
    List.replicate (widths.getD c 0) '-')
  let dataLines := stripped_values.map fun row =>
    pyRstrip (joinSpace ((List.range row.length).map fun i =>
      if justifications.getD i .left = .right then rjust (row.getD i []) (widths.getD i 0)
      else ljust (row.getD i []) (widths.getD i 0)))
  headerLines ++ dashLine :: dataLines

/-- `is_dash_line`: non-blank, only `'-'` and `' '`, and at least one `'-'`. -/
def is_dash_line (line : List Char) : Bool :=
  if line.isEmpty || (pyStrip line).isEmpty then false
  else (line.all fun c => c = '-' || c = ' ') && line.contains '-'

/-- The data-collection walk of `main`: consecutive lines below the dash line
up to a blank line, a new dash line, or the end of input. -/
def collectData : List (List Char) → List (List Char)
  | [] => []
  | l :: ls =>
      if (pyStrip l).isEmpty then []
      else if is_dash_line l then []
      else l :: collectData ls

/-- The header-only rendering of `main` (no data lines, source lines 260-268):
widths come from the header texts alone, each header line is the space-joined,
right-trimmed row of left-justified header cells, and the dash line is the
space-joined row of dash runs (not right-trimmed). -/
def render_header_only (lines : List (List Char)) (header_indices : List Nat)
    (columns : List (Nat × Nat)) : List (List Char) :=
  let header_texts := extract_multiline_headers lines header_indices columns
  let widths := header_texts.map fun col_texts => maxD0 (col_texts.map List.length)
  ((List.range header_indices.length).map fun li =>
      pyRstrip (joinSpace ((List.range columns.length).map fun c =>
        ljust ((header_texts.getD c []).getD li []) (widths.getD c 0)))) ++
    [joinSpace (widths.map fun w => List.replicate w '-')]

/-- State accumulated by `main`'s scanning loop: lines printed immediately
during the scan, the consumed indices, the anchor-to-block map, and (for
analysis) the detected tables as (header indices, dash index, data indices). -/
structure ScanResult where
  early : List (List Char)
  consumed : List Nat
  omap : List (Nat × List (List Char))
  tables : List (List Nat × Nat × List Nat)
deriving Repr

/-- Python dict assignment `output_map[k] = v` (overwrite on collision). -/
def omInsert (m : List (Nat × List (List Char))) (k : Nat) (v : List (List Char)) :
    List (Nat × List (List Char)) :=
  if m.any fun p => p.1 = k then m.map fun p => if p.1 = k then (k, v) else p
  else m ++ [(k, v)]

/-- Python dict lookup `output_map.get(k)`. -/
def omLookup (m : List (Nat × List (List Char))) (k : Nat) : Option (List (List Char)) :=
  (m.find? fun p => p.1 = k).map fun p => p.2

/-- The scanning `while` loop of `main`.  `fuel` bounds the number of
iterations; `run` supplies `lines.length`, which is always sufficient since
`i` strictly increases at each iteration. -/
def scanAux (lines : List (List Char)) : Nat → Nat → ScanResult → ScanResult
  | 0, _, acc => acc
  | fuel + 1, i, acc =>
      if i < lines.length then
        let line := lines.getD i []
        if is_dash_line line then
          let columns := find_columns line
          let header_indices := collect_header_lines lines i columns
          if header_indices.isEmpty then
            scanAux lines fuel (i + 1)
              { acc with early := acc.early ++ [line] }
          else
            let data_lines := collectData (lines.drop (i + 1))
            let j := i + 1 + data_lines.length
            if data_lines.isEmpty then
              let formatted := render_header_only lines header_indices columns
              scanAux lines fuel j
                { early := acc.early
                  consumed := acc.consumed ++ header_indices ++ [i]
                  omap := omInsert acc.omap (header_indices.getD 0 0) formatted
                  tables := acc.tables ++ [(header_indices, i, [])] }
            else
              let formatted := process_table lines header_indices i data_lines columns
              scanAux lines fuel j
                { early := acc.early
                  consumed := acc.consumed ++ header_indices ++ [i] ++
                    List.range' (i + 1) data_lines.length
                  omap := omInsert acc.omap (header_indices.getD 0 0) formatted
                  tables := acc.tables ++ [(header_indices, i, List.range' (i + 1) data_lines.length)] }
        else
          scanAux lines fuel (i + 1) acc
      else acc

/-- The empty initial scanning state. -/
def initScan : ScanResult := ⟨[], [], [], []⟩

/-- The final printing loop of `main`: first everything printed during the
scan, then, in index order, the rendered block at its anchor, nothing for a
consumed line, and the line itself otherwise. -/
def assemble (lines : List (List Char)) (r : ScanResult) : List (List Char) :=
  r.early ++ ((List.range lines.length).map fun i =>
    match omLookup r.omap i with
    | some block => block
    | none => if r.consumed.contains i then [] else [lines.getD i []]).flatten

/-- The whole transform of `main` on the normalized line sequence. -/
def run (lines : List (List Char)) : List (List Char) :=
  assemble lines (scanAux lines lines.length 0 initScan)

/-- The tables detected by a full scan of the input. -/
def tablesOf (lines : List (List Char)) : List (List Nat × Nat × List Nat) :=
  (scanAux lines lines.length 0 initScan).tables

/-- Turn string literals into the line model. -/
def strLines (xs : List String) : List (List Char) := xs.map String.data

/-! ## Specification-side definitions

These two definitions follow the specification's words (§4.5) rather than the
code, to be compared with `detect_justification`. -/

/-- Spec §4.5, per-cell decision: skip cells blank after trimming; otherwise
the leading- and trailing-space counts give the first definitive signal. -/
def cellSignalSpec (val : List Char) : Option Justification :=
  if val.all isPySpace then none
  else if (val.takeWhile isPySpace).length > 0 ∧ (val.reverse.takeWhile isPySpace).length = 0 then
    some .right
  else if (val.reverse.takeWhile isPySpace).length > 0 ∧ (val.takeWhile isPySpace).length = 0 then
    some .left
  else if (val.takeWhile isPySpace).length > (val.reverse.takeWhile isPySpace).length then
    some .right
  else none

/-- Spec §4.5: the first cell (in row order) yielding a definitive signal
decides the column; with no signal the default is `left`. -/
def detectJustificationSpec (vals : List (List Char)) : Justification :=
  (vals.findSome? cellSignalSpec).getD .left

/-- Spec §4.3, acceptance of a header candidate in the spec's words: the line
is not blank, and every gap-span position that exists within the line's
length holds a space. -/
def HeaderAccept (l : List Char) (gaps : List (Nat × Nat)) : Prop :=
  (∃ c ∈ l, isPySpace c = false) ∧
    ∀ g ∈ gaps, ∀ pos, g.1 ≤ pos → pos < g.2 → pos < l.length → l.getD pos ' ' = ' '

/-- The code's acceptance test for a header candidate: not blank, and
`is_valid_header_line` holds. -/
def acceptB (l : List Char) (gaps : List (Nat × Nat)) : Bool :=
  !(pyStrip l).isEmpty && is_valid_header_line l gaps

/-! ## Checked mirror

The same computation with every list indexing of the Python source performed
through `List.get?`, so that an out-of-bounds access surfaces as `none`.
`runChk lines = some (run lines)` states that no access is ever out of
bounds and no error branch is ever taken. -/

/-- Evaluate `f` at every element, failing if any evaluation fails. -/
def optList (l : List α) (f : α → Option β) : Option (List β) :=
  match l with
  | [] => some []
  | x :: xs => (f x).bind fun y => (optList xs f).map fun ys => y :: ys

/-- `collect_header_lines`'s walk with checked access to `lines[idx]`. -/
def collectHeaderAuxChk (lines : List (List Char)) (gaps : List (Nat × Nat)) :
    Nat → Option (List Nat)
  | 0 => some []
  | n + 1 =>
      (lines.get? n).bind fun line =>
        if (pyStrip line).isEmpty then some []
        else if is_valid_header_line line gaps then
          (collectHeaderAuxChk lines gaps n).map fun r => n :: r
        else some []

/-- Checked `collect_header_lines`. -/
def collect_header_linesChk (lines : List (List Char)) (dash_line_idx : Nat)
    (columns : List (Nat × Nat)) : Option (List Nat) :=
  (collectHeaderAuxChk lines (find_gaps columns) dash_line_idx).map List.reverse

/-- Checked `extract_multiline_headers` (`lines[idx]` checked). -/
def extract_multiline_headersChk (lines : List (List Char)) (header_indices : List Nat)
    (columns : List (Nat × Nat)) : Option (List (List (List Char))) :=
  optList columns fun c =>
    optList header_indices fun idx =>
      (lines.get? idx).map fun line => pyStrip (extract_value line c.1 c.2)

/-- Checked `process_table`: every indexing (`row[col_idx]`,
`header_texts[col_idx][line_idx]`, `justifications[i]`, `new_widths[i]`)
goes through `List.get?`. -/
def process_tableChk (lines : List (List Char)) (header_indices : List Nat)
    (dash_line_idx : Nat) (data_lines : List (List Char))
    (columns : List (Nat × Nat)) : Option (List (List Char)) :=
  (extract_multiline_headersChk lines header_indices columns).bind fun header_texts =>
  let raw_values := data_lines.map fun line => columns.map fun c => extract_value line c.1 c.2
  let stripped_values := raw_values.map fun row => row.map pyStrip
  (optList (List.range columns.length) fun c =>
    (optList raw_values fun row => row.get? c).map detect_justification).bind
    fun justifications =>
  (optList (List.range columns.length) fun c =>
    (header_texts.get? c).bind fun ts =>
      (optList stripped_values fun row => row.get? c).map fun cells =>
        max (maxD0 (ts.map List.length)) (maxD0 (cells.map List.length))).bind
    fun widths =>
  (optList (List.range header_indices.length) fun li =>
    (optList (List.range columns.length) fun c =>
      (header_texts.get? c).bind fun ts =>
        (ts.get? li).bind fun t =>
          (widths.get? c).map fun w => ljust t w).map fun parts =>
      pyRstrip (joinSpace parts)).bind fun headerLines =>
  (optList (List.range columns.length) fun c =>
    (widths.get? c).map fun w => List.replicate w '-').bind fun dashParts =>
  (optList stripped_values fun row =>
    (optList (List.range row.length) fun i =>
      (row.get? i).bind fun v =>
        (justifications.get? i).bind fun jst =>
          (widths.get? i).map fun w =>
            if jst = Justification.right then rjust v w else ljust v w).map fun parts =>
      pyRstrip (joinSpace parts)).map fun dataLines =>
  headerLines ++ joinSpace dashParts :: dataLines

/-- Checked scanning loop (`lines[i]`, `header_indices[0]` and the header-only
rendering's indexing all via `List.get?`). -/
def scanChk (lines : List (List Char)) : Nat → Nat → ScanResult → Option ScanResult
  | 0, _, acc => some acc
  | fuel + 1, i, acc =>
      if i < lines.length then
        (lines.get? i).bind fun line =>
        if is_dash_line line then
          let columns := find_columns line
          (collect_header_linesChk lines i columns).bind fun header_indices =>
          if header_indices.isEmpty then
            scanChk lines fuel (i + 1) { acc with early := acc.early ++ [line] }
          else
            let data_lines := collectData (lines.drop (i + 1))
            let j := i + 1 + data_lines.length
            if data_lines.isEmpty then
              (extract_multiline_headersChk lines header_indices columns).bind
                fun header_texts =>
              let widths := header_texts.map fun col_texts => maxD0 (col_texts.map List.length)
              (optList (List.range header_indices.length) fun li =>
                (optList (List.range columns.length) fun c =>
                  (header_texts.get? c).bind fun ts =>
                    (ts.get? li).bind fun t =>
                      (widths.get? c).map fun w => ljust t w).map fun parts =>
                  pyRstrip (joinSpace parts)).bind fun hdr =>
              (header_indices.get? 0).bind fun anchor =>
              scanChk lines fuel j
                { early := acc.early
                  consumed := acc.consumed ++ header_indices ++ [i]
                  omap := omInsert acc.omap anchor
                    (hdr ++ [joinSpace (widths.map fun w => List.replicate w '-')])
                  tables := acc.tables ++ [(header_indices, i, [])] }
            else
              (process_tableChk lines header_indices i data_lines columns).bind
                fun formatted =>
              (header_indices.get? 0).bind fun anchor =>
              scanChk lines fuel j
                { early := acc.early
                  consumed := acc.consumed ++ header_indices ++ [i] ++
                    List.range' (i + 1) data_lines.length
                  omap := omInsert acc.omap anchor formatted
                  tables := acc.tables ++ [(header_indices, i, List.range' (i + 1) data_lines.length)] }
        else
          scanChk lines fuel (i + 1) acc
      else some acc

/-- Checked transform: `none` would mean some internal access was out of
bounds. -/
def runChk (lines : List (List Char)) : Option (List (List Char)) :=
  (scanChk lines lines.length 0 initScan).map (assemble lines)

/-! ## Basic lemmas -/

theorem getD_mem {α : Type _} (l : List α) (i : Nat) (d : α) (h : i < l.length) :
    l.getD i d ∈ l := by
  rw [List.getD_eq_get l d h]
  exact List.get_mem l i h

theorem get?_eq_some_getD {α : Type _} (l : List α) (i : Nat) (d : α) (h : i < l.length) :
    l.get? i = some (l.getD i d) := by
  rw [List.get?_eq_get h, List.getD_eq_get l d h]

theorem get?_zero_of_not_isEmpty {α : Type _} (l : List α) (d : α) (h : l.isEmpty = false) :
    l.get? 0 = some (l.getD 0 d) := by
  cases l with
  | nil => simp at h
  | cons a t => rfl

theorem optList_eq_some {α β : Type _} (f : α → Option β) (g : α → β) :
    ∀ l : List α, (∀ x ∈ l, f x = some (g x)) → optList l f = some (l.map g)
  | [], _ => rfl
  | x :: xs, h => by
      have hx := h x (List.mem_cons_self x xs)
      have hxs := optList_eq_some f g xs fun y hy => h y (List.mem_cons_of_mem x hy)
      simp [optList, hx, hxs]

theorem getD_map_range {α : Type _} (n c : Nat) (f : Nat → α) (d : α) (h : c < n) :
    ((List.range n).map f).getD c d = f c := by
  rw [List.getD_eq_get?, List.get?_map, List.get?_range h]
  rfl

theorem map_getD_range {α : Type _} : ∀ (l : List α) (d : α),
    (List.range l.length).map (fun i => l.getD i d) = l
  | [], _ => rfl
  | a :: t, d => by
      rw [show (a :: t).length = t.length + 1 from rfl, List.range_succ_eq_map,
        List.map_cons, List.map_map]
      have hcomp : ∀ x ∈ List.range t.length,
          ((fun i => (a :: t).getD i d) ∘ Nat.succ) x = t.getD x d := fun x _ => rfl
      rw [List.map_congr_left hcomp, map_getD_range t d]
      rfl

theorem flatten_map_singleton {α β : Type _} (f : α → β) :
    ∀ l : List α, (l.map fun x => [f x]).flatten = l.map f
  | [] => rfl
  | a :: t => by simp [flatten_map_singleton f t]

theorem le_maxD0 : ∀ (l : List Nat), ∀ x ∈ l, x ≤ maxD0 l
  | [], x, hx => absurd hx (List.not_mem_nil x)
  | a :: t, x, hx => by
      rcases List.mem_cons.mp hx with h | h
      · subst h; exact le_max_left _ _
      · exact le_trans (le_maxD0 t x h) (le_max_right _ _)

theorem maxD0_attained : ∀ l : List Nat, maxD0 l = 0 ∨ maxD0 l ∈ l
  | [] => Or.inl rfl
  | a :: t => by
      have hc : maxD0 (a :: t) = max a (maxD0 t) := rfl
      rcases Nat.le_total a (maxD0 t) with hle | hle
      · rw [hc, max_eq_right hle]
        rcases maxD0_attained t with h | h
        · exact Or.inl h
        · exact Or.inr (List.mem_cons_of_mem a h)
      · rw [hc, max_eq_left hle]
        exact Or.inr (List.mem_cons_self a t)

/-! ## Blankness and trimming lemmas -/

theorem pyRstrip_eq_nil_iff (l : List Char) :
    pyRstrip l = [] ↔ ∀ c ∈ l, isPySpace c = true := by
  unfold pyRstrip
  rw [List.reverse_eq_nil_iff, List.dropWhile_eq_nil_iff]
  constructor
  · intro h c hc
    exact h c (List.mem_reverse.mpr hc)
  · intro h c hc
    exact h c (List.mem_reverse.mp hc)

theorem all_dropWhile {α : Type _} (p : α → Bool) (l : List α) :
    (∀ c ∈ l.dropWhile p, p c = true) ↔ ∀ c ∈ l, p c = true := by
  constructor
  · intro h c hc
    rw [← List.takeWhile_append_dropWhile p l] at hc
    rcases List.mem_append.mp hc with h1 | h2
    · exact List.mem_takeWhile_imp h1
    · exact h c h2
  · intro h c hc
    refine h c ?_
    rw [← List.takeWhile_append_dropWhile p l]
    exact List.mem_append.mpr (Or.inr hc)

theorem pyStrip_empty_iff (l : List Char) :
    (pyStrip l).isEmpty = true ↔ ∀ c ∈ l, isPySpace c = true := by
  unfold pyStrip pyLstrip
  rw [List.isEmpty_iff, pyRstrip_eq_nil_iff]
  exact all_dropWhile isPySpace l

theorem not_blank_iff (l : List Char) :
    (pyStrip l).isEmpty = false ↔ ∃ c ∈ l, isPySpace c = false := by
  rw [Bool.eq_false_iff, Ne, pyStrip_empty_iff]
  push_neg
  simp only [Bool.not_eq_true]

theorem head?_dropWhile {α : Type _} (p : α → Bool) :
    ∀ (l : List α) (c : α), (l.dropWhile p).head? = some c → p c = false := by
  intro l
  induction l with
  | nil => intro c h; simp [List.dropWhile] at h
  | cons a t ih =>
      intro c h
      rw [List.dropWhile_cons] at h
      by_cases hp : p a = true
      · rw [if_pos hp] at h
        exact ih c h
      · rw [if_neg hp] at h
        rw [List.head?_cons] at h
        injection h with h
        subst h
        exact Bool.eq_false_iff.mpr hp

theorem noTrail_pyRstrip (l : List Char) : noTrailingSpace (pyRstrip l) = true := by
  unfold noTrailingSpace pyRstrip
  rw [List.getLast?_reverse]
  cases h : (l.reverse.dropWhile isPySpace).head? with
  | none => rfl
  | some c => simp [head?_dropWhile isPySpace l.reverse c h]

/-! ## Header-acceptance lemmas -/

theorem is_valid_header_line_iff (line : List Char) (gaps : List (Nat × Nat)) :
    is_valid_header_line line gaps = true ↔
      ∀ g ∈ gaps, ∀ pos, g.1 ≤ pos → pos < g.2 → pos < line.length →
        line.getD pos ' ' = ' ' := by
  unfold is_valid_header_line
  rw [List.all_eq_true]
  constructor
  · intro h g hg pos h1 h2 h3
    have hall := h g hg
    rw [List.all_eq_true] at hall
    have hmem : pos ∈ List.range' g.1 (min g.2 line.length - g.1) := by
      rw [List.mem_range'_1]
      omega
    have hb := hall pos hmem
    simp only [Bool.not_eq_true', Bool.and_eq_false_iff, decide_eq_false_iff_not,
      bne_eq_false_iff_eq] at hb
    rcases hb with hb | hb
    · exact absurd h3 hb
    · exact hb
  · intro h g hg
    rw [List.all_eq_true]
    intro pos hmem
    rw [List.mem_range'_1] at hmem
    have h3 : pos < line.length := by omega
    have hsp := h g hg pos hmem.1 (by omega) h3
    simp only [Bool.not_eq_true', Bool.and_eq_false_iff, decide_eq_false_iff_not,
      bne_eq_false_iff_eq]
    exact Or.inr hsp

theorem acceptB_iff (l : List Char) (gaps : List (Nat × Nat)) :
    acceptB l gaps = true ↔ HeaderAccept l gaps := by
  unfold acceptB HeaderAccept
  rw [Bool.and_eq_true, Bool.not_eq_true', not_blank_iff, is_valid_header_line_iff]

theorem collectHeaderAux_spec (lines : List (List Char)) (gaps : List (Nat × Nat)) :
    ∀ n : Nat, ∃ s : Nat, s ≤ n ∧
      collectHeaderAux lines gaps n = (List.range' s (n - s)).reverse ∧
      (∀ i, s ≤ i → i < n → acceptB (lines.getD i []) gaps = true) ∧
      (s = 0 ∨ acceptB (lines.getD (s - 1) []) gaps = false) := by
  intro n
  induction n with
  | zero =>
      exact ⟨0, Nat.le_refl 0, rfl, fun i h1 h2 => absurd h2 (by omega), Or.inl rfl⟩
  | succ n ih =>
      by_cases hacc : acceptB (lines.getD n []) gaps = true
      · rcases ih with ⟨s, hs, heq, hall, hstop⟩
        have hblank : (pyStrip (lines.getD n [])).isEmpty = false := by
          unfold acceptB at hacc
          rw [Bool.and_eq_true, Bool.not_eq_true'] at hacc
          exact hacc.1
        have hvalid : is_valid_header_line (lines.getD n []) gaps = true := by
          unfold acceptB at hacc
          rw [Bool.and_eq_true] at hacc
          exact hacc.2
        refine ⟨s, by omega, ?_, ?_, hstop⟩
        · rw [collectHeaderAux]
          simp only [hblank, Bool.false_eq_true, if_false, hvalid, if_true, heq]
          rw [show n + 1 - s = (n - s) + 1 by omega, List.range'_concat,
            List.reverse_append]
          simp only [List.reverse_singleton, List.singleton_append, List.cons.injEq]
          exact ⟨by omega, trivial⟩
        · intro i h1 h2
          rcases Nat.lt_succ_iff_lt_or_eq.mp h2 with h | h
          · exact hall i h1 h
          · subst h; exact hacc
      · have hacc' : acceptB (lines.getD n []) gaps = false := Bool.eq_false_iff.mpr hacc
        refine ⟨n + 1, Nat.le_refl _,
          ?_, fun i h1 h2 => (Nat.lt_irrefl _ (Nat.lt_of_le_of_lt h1 h2)).elim,
          Or.inr (by simpa using hacc')⟩
        rw [collectHeaderAux, Nat.sub_self]
        unfold acceptB at hacc'
        rw [Bool.and_eq_false_iff, Bool.not_eq_false'] at hacc'
        by_cases hb : (pyStrip (lines.getD n [])).isEmpty = true
        · simp only [hb, if_true]
          rfl
        · rcases hacc' with h | h
          · exact absurd h hb
          · have hb' : (pyStrip (lines.getD n [])).isEmpty = false := Bool.eq_false_iff.mpr hb
            simp only [hb', Bool.false_eq_true, if_false, h]
            rfl

theorem collectHeaderAux_lt (lines : List (List Char)) (gaps : List (Nat × Nat)) (n : Nat) :
    ∀ m ∈ collectHeaderAux lines gaps n, m < n := by
  rcases collectHeaderAux_spec lines gaps n with ⟨s, hs, heq, -, -⟩
  intro m hm
  rw [heq, List.mem_reverse, List.mem_range'_1] at hm
  omega

theorem collect_header_lines_lt (lines : List (List Char)) (dash_line_idx : Nat)
    (columns : List (Nat × Nat)) :
    ∀ m ∈ collect_header_lines lines dash_line_idx columns, m < dash_line_idx := by
  intro m hm
  unfold collect_header_lines at hm
  rw [List.mem_reverse] at hm
  exact collectHeaderAux_lt lines (find_gaps columns) dash_line_idx m hm

/-! ## The checked mirror never fails -/

theorem collectHeaderAuxChk_eq (lines : List (List Char)) (gaps : List (Nat × Nat)) :
    ∀ n : Nat, n ≤ lines.length →
      collectHeaderAuxChk lines gaps n = some (collectHeaderAux lines gaps n)
  | 0, _ => rfl
  | n + 1, h => by
      rw [collectHeaderAuxChk, collectHeaderAux]
      rw [get?_eq_some_getD lines n [] (by omega), Option.some_bind]
      by_cases hb : (pyStrip (lines.getD n [])).isEmpty = true
      · simp only [hb, if_true]
      · have hb' := Bool.eq_false_iff.mpr hb
        simp only [hb', Bool.false_eq_true, if_false]
        by_cases hv : is_valid_header_line (lines.getD n []) gaps = true
        · simp only [hv, if_true]
          rw [collectHeaderAuxChk_eq lines gaps n (by omega)]
          rfl
        · simp only [Bool.eq_false_iff.mpr hv, Bool.false_eq_true, if_false]

theorem collect_header_linesChk_eq (lines : List (List Char)) (dash_line_idx : Nat)
    (columns : List (Nat × Nat)) (h : dash_line_idx ≤ lines.length) :
    collect_header_linesChk lines dash_line_idx columns =
      some (collect_header_lines lines dash_line_idx columns) := by
  unfold collect_header_linesChk collect_header_lines
  rw [collectHeaderAuxChk_eq lines (find_gaps columns) dash_line_idx h]
  rfl

theorem extract_multiline_headersChk_eq (lines : List (List Char))
    (header_indices : List Nat) (columns : List (Nat × Nat))
    (h : ∀ idx ∈ header_indices, idx < lines.length) :
    extract_multiline_headersChk lines header_indices columns =
      some (extract_multiline_headers lines header_indices columns) := by
  unfold extract_multiline_headersChk extract_multiline_headers
  apply optList_eq_some
  intro c _
  rw [optList_eq_some _ (fun idx => pyStrip (extract_value (lines.getD idx []) c.1 c.2))
    header_indices fun idx hi => by
      rw [get?_eq_some_getD lines idx [] (h idx hi)]
      rfl]

theorem renderHeadersChk_eq (header_texts : List (List (List Char))) (widths : List Nat)
    (nh nc : Nat) (hhtl : header_texts.length = nc) (hwl : widths.length = nc)
    (hts : ∀ ts ∈ header_texts, ts.length = nh) :
    optList (List.range nh) (fun li =>
      (optList (List.range nc) fun c =>
        (header_texts.get? c).bind fun ts =>
          (ts.get? li).bind fun t =>
            (widths.get? c).map fun w => ljust t w).map fun parts =>
        pyRstrip (joinSpace parts)) =
    some ((List.range nh).map fun li =>
      pyRstrip (joinSpace ((List.range nc).map fun c =>
        ljust ((header_texts.getD c []).getD li []) (widths.getD c 0)))) := by
  apply optList_eq_some
  intro li hli
  rw [List.mem_range] at hli
  have hin : ∀ c ∈ List.range nc,
      ((header_texts.get? c).bind fun ts => (ts.get? li).bind fun t =>
        (widths.get? c).map fun w => ljust t w) =
      some (ljust ((header_texts.getD c []).getD li []) (widths.getD c 0)) := by
    intro c hc
    rw [List.mem_range] at hc
    rw [get?_eq_some_getD header_texts c [] (by omega), Option.some_bind]
    rw [get?_eq_some_getD (header_texts.getD c []) li []
      (by rw [hts _ (getD_mem header_texts c [] (by omega))]; exact hli), Option.some_bind]
    rw [get?_eq_some_getD widths c 0 (by omega)]
    rfl
  rw [optList_eq_some _ _ _ hin]
  rfl

theorem process_tableChk_eq (lines : List (List Char)) (header_indices : List Nat)
    (dash_line_idx : Nat) (data_lines : List (List Char)) (columns : List (Nat × Nat))
    (hb : ∀ idx ∈ header_indices, idx < lines.length) :
    process_tableChk lines header_indices dash_line_idx data_lines columns =
      some (process_table lines header_indices dash_line_idx data_lines columns) := by
  have hraw : ∀ row ∈ (data_lines.map fun line => columns.map fun cc =>
      extract_value line cc.1 cc.2), row.length = columns.length := by
    intro row hrow
    rcases List.mem_map.mp hrow with ⟨line, -, rfl⟩
    simp
  have hstr : ∀ row ∈ ((data_lines.map fun line => columns.map fun cc =>
      extract_value line cc.1 cc.2).map fun row => row.map pyStrip),
      row.length = columns.length := by
    intro row hrow
    rcases List.mem_map.mp hrow with ⟨r, hr, rfl⟩
    simp [hraw r hr]
  have hht : (extract_multiline_headers lines header_indices columns).length =
      columns.length := by
    simp [extract_multiline_headers]
  have hhts : ∀ ts ∈ extract_multiline_headers lines header_indices columns,
      ts.length = header_indices.length := by
    intro ts hts
    rcases List.mem_map.mp hts with ⟨c, -, rfl⟩
    simp
  have h2 : optList (List.range columns.length)
      (fun c => (optList (data_lines.map fun line => columns.map fun cc =>
          extract_value line cc.1 cc.2) fun row => row.get? c).map detect_justification) =
      some ((List.range columns.length).map fun c => detect_justification
        ((data_lines.map fun line => columns.map fun cc =>
          extract_value line cc.1 cc.2).map fun row => row.getD c [])) := by
    apply optList_eq_some
    intro c hc
    rw [List.mem_range] at hc
    rw [optList_eq_some (fun row => row.get? c) (fun row => row.getD c []) _
      fun row hrow => get?_eq_some_getD row c [] (by rw [hraw row hrow]; exact hc)]
    rfl
  have h3 : optList (List.range columns.length)
      (fun c => ((extract_multiline_headers lines header_indices columns).get? c).bind
        fun ts => (optList ((data_lines.map fun line => columns.map fun cc =>
            extract_value line cc.1 cc.2).map fun row => row.map pyStrip)
          fun row => row.get? c).map fun cells =>
          max (maxD0 (ts.map List.length)) (maxD0 (cells.map List.length))) =
      some ((List.range columns.length).map fun c =>
        max (maxD0 (((extract_multiline_headers lines header_indices columns).getD c
            []).map List.length))
          (maxD0 (((data_lines.map fun line => columns.map fun cc =>
              extract_value line cc.1 cc.2).map fun row => row.map pyStrip).map
            fun row => (row.getD c []).length))) := by
    apply optList_eq_some
    intro c hc
    rw [List.mem_range] at hc
    rw [get?_eq_some_getD _ c [] (by rw [hht]; exact hc), Option.some_bind]
    rw [optList_eq_some (fun row => row.get? c) (fun row => row.getD c []) _
      fun row hrow => get?_eq_some_getD row c [] (by rw [hstr row hrow]; exact hc)]
    rw [Option.map_some', List.map_map]
    rfl
  have h4 := renderHeadersChk_eq (extract_multiline_headers lines header_indices columns)
    ((List.range columns.length).map fun c =>
      max (maxD0 (((extract_multiline_headers lines header_indices columns).getD c
          []).map List.length))
        (maxD0 (((data_lines.map fun line => columns.map fun cc =>
            extract_value line cc.1 cc.2).map fun row => row.map pyStrip).map
          fun row => (row.getD c []).length)))
    header_indices.length columns.length hht (by simp) hhts
  have h5 : optList (List.range columns.length)
      (fun c => (((List.range columns.length).map fun c =>
          max (maxD0 (((extract_multiline_headers lines header_indices columns).getD c
              []).map List.length))
            (maxD0 (((data_lines.map fun line => columns.map fun cc =>
                extract_value line cc.1 cc.2).map fun row => row.map pyStrip).map
              fun row => (row.getD c []).length))).get? c).map
        fun w => List.replicate w '-') =
      some ((List.range columns.length).map fun c =>
        List.replicate (((List.range columns.length).map fun c =>
          max (maxD0 (((extract_multiline_headers lines header_indices columns).getD c
              []).map List.length))
            (maxD0 (((data_lines.map fun line => columns.map fun cc =>
                extract_value line cc.1 cc.2).map fun row => row.map pyStrip).map
              fun row => (row.getD c []).length))).getD c 0) '-') := by
    apply optList_eq_some
    intro c hc
    rw [List.mem_range] at hc
    rw [get?_eq_some_getD _ c 0 (by simp only [List.length_map, List.length_range]; exact hc)]
    rfl
  have h6 : optList ((data_lines.map fun line => columns.map fun cc =>
      extract_value line cc.1 cc.2).map fun row => row.map pyStrip)
      (fun row => (optList (List.range row.length) fun i =>
        (row.get? i).bind fun v =>
          ((((List.range columns.length).map fun c => detect_justification
            ((data_lines.map fun line => columns.map fun cc =>
              extract_value line cc.1 cc.2).map fun row => row.getD c []))).get? i).bind
            fun jst =>
            (((List.range columns.length).map fun c =>
              max (maxD0 (((extract_multiline_headers lines header_indices columns).getD c
                  []).map List.length))
                (maxD0 (((data_lines.map fun line => columns.map fun cc =>
                    extract_value line cc.1 cc.2).map fun row => row.map pyStrip).map
                  fun row => (row.getD c []).length))).get? i).map fun w =>
              if jst = Justification.right then rjust v w else ljust v w).map
        fun parts => pyRstrip (joinSpace parts)) =
      some (((data_lines.map fun line => columns.map fun cc =>
        extract_value line cc.1 cc.2).map fun row => row.map pyStrip).map
        fun row => pyRstrip (joinSpace ((List.range row.length).map fun i =>
          if ((List.range columns.length).map fun c => detect_justification
              ((data_lines.map fun line => columns.map fun cc =>
                extract_value line cc.1 cc.2).map fun row => row.getD c [])).getD i
              Justification.left = Justification.right then
            rjust (row.getD i []) (((List.range columns.length).map fun c =>
              max (maxD0 (((extract_multiline_headers lines header_indices columns).getD c
                  []).map List.length))
                (maxD0 (((data_lines.map fun line => columns.map fun cc =>
                    extract_value line cc.1 cc.2).map fun row => row.map pyStrip).map
                  fun row => (row.getD c []).length))).getD i 0)
          else
            ljust (row.getD i []) (((List.range columns.length).map fun c =>
              max (maxD0 (((extract_multiline_headers lines header_indices columns).getD c
                  []).map List.length))
                (maxD0 (((data_lines.map fun line => columns.map fun cc =>
                    extract_value line cc.1 cc.2).map fun row => row.map pyStrip).map
                  fun row => (row.getD c []).length))).getD i 0)))) := by
    apply optList_eq_some
    intro row hrow
    have hrl := hstr row hrow
    have hin : ∀ i ∈ List.range row.length,
        ((row.get? i).bind fun v =>
          ((((List.range columns.length).map fun c => detect_justification
            ((data_lines.map fun line => columns.map fun cc =>
              extract_value line cc.1 cc.2).map fun row => row.getD c []))).get? i).bind
            fun jst =>
            (((List.range columns.length).map fun c =>
              max (maxD0 (((extract_multiline_headers lines header_indices columns).getD c
                  []).map List.length))
                (maxD0 (((data_lines.map fun line => columns.map fun cc =>
                    extract_value line cc.1 cc.2).map fun row => row.map pyStrip).map
                  fun row => (row.getD c []).length))).get? i).map fun w =>
              if jst = Justification.right then rjust v w else ljust v w) =
        some (if ((List.range columns.length).map fun c => detect_justification
              ((data_lines.map fun line => columns.map fun cc =>
                extract_value line cc.1 cc.2).map fun row => row.getD c [])).getD i
              Justification.left = Justification.right then
            rjust (row.getD i []) (((List.range columns.length).map fun c =>
              max (maxD0 (((extract_multiline_headers lines header_indices columns).getD c
                  []).map List.length))
                (maxD0 (((data_lines.map fun line => columns.map fun cc =>
                    extract_value line cc.1 cc.2).map fun row => row.map pyStrip).map
                  fun row => (row.getD c []).length))).getD i 0)
          else
            ljust (row.getD i []) (((List.range columns.length).map fun c =>
              max (maxD0 (((extract_multiline_headers lines header_indices columns).getD c
                  []).map List.length))
                (maxD0 (((data_lines.map fun line => columns.map fun cc =>
                    extract_value line cc.1 cc.2).map fun row => row.map pyStrip).map
                  fun row => (row.getD c []).length))).getD i 0)) := by
      intro i hi
      rw [List.mem_range] at hi
      rw [get?_eq_some_getD row i [] hi, Option.some_bind]
      rw [get?_eq_some_getD _ i Justification.left
        (by simp only [List.length_map, List.length_range]; omega), Option.some_bind]
      rw [get?_eq_some_getD _ i 0
        (by simp only [List.length_map, List.length_range]; omega)]
      rfl
    rw [optList_eq_some _ _ _ hin]
    rfl
  simp only [process_tableChk, process_table, new_widths]
  rw [extract_multiline_headersChk_eq lines header_indices columns hb]
  simp only [Option.some_bind]
  rw [h2]
  simp only [Option.some_bind]
  rw [h3]
  simp only [Option.some_bind]
  rw [h4]
  simp only [Option.some_bind]
  rw [h5]
  simp only [Option.some_bind]
  rw [h6]
  simp only [Option.map_some']

theorem scanChk_eq (lines : List (List Char)) :
    ∀ (fuel i : Nat) (acc : ScanResult),
      scanChk lines fuel i acc = some (scanAux lines fuel i acc)
  | 0, _, _ => rfl
  | fuel + 1, i, acc => by
      rw [scanChk, scanAux]
      by_cases hi : i < lines.length
      · rw [if_pos hi, if_pos hi]
        rw [get?_eq_some_getD lines i [] hi, Option.some_bind]
        by_cases hd : is_dash_line (lines.getD i []) = true
        · simp only [hd, if_true]
          rw [collect_header_linesChk_eq lines i (find_columns (lines.getD i []))
            (Nat.le_of_lt hi), Option.some_bind]
          by_cases he : (collect_header_lines lines i
              (find_columns (lines.getD i []))).isEmpty = true
          · simp only [he, if_true]
            exact scanChk_eq lines fuel (i + 1) _
          · have he' := Bool.eq_false_iff.mpr he
            simp only [he', Bool.false_eq_true, if_false]
            have hbound : ∀ idx ∈ collect_header_lines lines i
                (find_columns (lines.getD i [])), idx < lines.length :=
              fun idx hidx => Nat.lt_trans
                (collect_header_lines_lt lines i (find_columns (lines.getD i [])) idx hidx) hi
            by_cases hde : (collectData (lines.drop (i + 1))).isEmpty = true
            · simp only [hde, if_true]
              rw [extract_multiline_headersChk_eq lines _ _ hbound, Option.some_bind]
              rw [renderHeadersChk_eq (extract_multiline_headers lines
                  (collect_header_lines lines i (find_columns (lines.getD i [])))
                  (find_columns (lines.getD i [])))
                ((extract_multiline_headers lines
                  (collect_header_lines lines i (find_columns (lines.getD i [])))
                  (find_columns (lines.getD i []))).map fun col_texts =>
                    maxD0 (col_texts.map List.length))
                (collect_header_lines lines i (find_columns (lines.getD i []))).length
                (find_columns (lines.getD i [])).length
                (by simp [extract_multiline_headers]) (by simp [extract_multiline_headers])
                (by
                  intro ts hts
                  rcases List.mem_map.mp hts with ⟨c, -, rfl⟩
                  simp), Option.some_bind]
              rw [get?_zero_of_not_isEmpty _ 0 he', Option.some_bind]
              exact scanChk_eq lines fuel _ _
            · have hde' := Bool.eq_false_iff.mpr hde
              simp only [hde', Bool.false_eq_true, if_false]
              rw [process_tableChk_eq lines _ i _ _ hbound, Option.some_bind]
              rw [get?_zero_of_not_isEmpty _ 0 he', Option.some_bind]
              exact scanChk_eq lines fuel _ _
        · have hd' := Bool.eq_false_iff.mpr hd
          simp only [hd', Bool.false_eq_true, if_false]
          exact scanChk_eq lines fuel (i + 1) acc
      · rw [if_neg hi, if_neg hi]

/-! ## Pass-through behaviour on inputs with no separator line -/

theorem scanAux_no_dash (lines : List (List Char))
    (h : ∀ l ∈ lines, is_dash_line l = false) :
    ∀ (fuel i : Nat) (acc : ScanResult), scanAux lines fuel i acc = acc
  | 0, _, _ => rfl
  | fuel + 1, i, acc => by
      rw [scanAux]
      by_cases hi : i < lines.length
      · rw [if_pos hi]
        have hd := h _ (getD_mem lines i [] hi)
        simp only [hd, Bool.false_eq_true, if_false]
        exact scanAux_no_dash lines h fuel (i + 1) acc
      · rw [if_neg hi]

theorem run_no_dash (lines : List (List Char))
    (h : ∀ l ∈ lines, is_dash_line l = false) : run lines = lines := by
  unfold run
  rw [scanAux_no_dash lines h]
  simp only [assemble, initScan, List.nil_append]
  have hcong : ∀ i ∈ List.range lines.length,
      (match omLookup ([] : List (Nat × List (List Char))) i with
       | some block => block
       | none => if List.contains [] i then [] else [lines.getD i []]) =
      [lines.getD i []] := fun i _ => rfl
  rw [List.map_congr_left hcong]
  rw [flatten_map_singleton (fun i => lines.getD i []) (List.range lines.length)]
  exact map_getD_range lines []


/-! ## Trailing whitespace of the rendered separator line -/

theorem joinSpace_cons_cons (p q : List Char) (rest : List (List Char)) :
    joinSpace (p :: q :: rest) = p ++ ' ' :: joinSpace (q :: rest) := by
  simp [joinSpace, List.intercalate, List.intersperse]

theorem joinSpace_singleton (p : List Char) : joinSpace [p] = p := by
  simp [joinSpace, List.intercalate]

theorem getLast?_cons_eq (a : Char) (l : List Char) :
    (a :: l).getLast? = if l.isEmpty then some a else l.getLast? := by
  cases l with
  | nil => simp
  | cons b t => simp [List.getLast?_cons_cons, List.isEmpty_cons]

theorem getLast?_replicate (c : Char) : ∀ n : Nat,
    (List.replicate n c).getLast? = if n = 0 then none else some c
  | 0 => rfl
  | n + 1 => by
      rw [List.replicate_succ, getLast?_cons_eq]
      cases n with
      | zero => simp [List.replicate]
      | succ m =>
          have h1 : (List.replicate (m + 1) c).isEmpty = false := rfl
          rw [h1]
          simp only [Bool.false_eq_true, if_false]
          rw [getLast?_replicate c (m + 1)]
          simp

theorem getLast?_joinSpace_append_run :
    ∀ (ps : List (List Char)) (w : Nat),
      (joinSpace (ps ++ [List.replicate w '-'])).getLast? =
        if w = 0 then (if ps.isEmpty then none else some ' ') else some '-'
  | [], w => by
      rw [List.nil_append, joinSpace_singleton, getLast?_replicate]
      simp
  | p :: ps, w => by
      have hshape : ∃ q rest, ps ++ [List.replicate w '-'] = q :: rest := by
        cases ps with
        | nil => exact ⟨List.replicate w '-', [], rfl⟩
        | cons a t => exact ⟨a, t ++ [List.replicate w '-'], rfl⟩
      rcases hshape with ⟨q, rest, heq⟩
      rw [List.cons_append, heq, joinSpace_cons_cons, ← heq]
      rw [List.getLast?_append]
      rw [getLast?_cons_eq ' ' (joinSpace (ps ++ [List.replicate w '-']))]
      have ih := getLast?_joinSpace_append_run ps w
      by_cases hw : w = 0
      · subst hw
        by_cases hps : ps.isEmpty = true
        · have hJ : joinSpace (ps ++ [List.replicate 0 '-']) = [] := by
            rw [← List.getLast?_eq_none]
            rw [ih]
            simp [hps]
          rw [hJ]
          rfl
        · have hJlast : (joinSpace (ps ++ [List.replicate 0 '-'])).getLast? = some ' ' := by
            rw [ih]
            simp [hps]
          have hJ : (joinSpace (ps ++ [List.replicate 0 '-'])).isEmpty = false := by
            cases hJn : joinSpace (ps ++ [List.replicate 0 '-']) with
            | nil => rw [hJn] at hJlast; simp at hJlast
            | cons x xs => rfl
          rw [if_neg (show ¬ (joinSpace (ps ++ [List.replicate 0 '-'])).isEmpty = true by
            rw [hJ]; exact Bool.false_ne_true), hJlast]
          rfl
      · have hJlast : (joinSpace (ps ++ [List.replicate w '-'])).getLast? = some '-' := by
          rw [ih]
          simp [hw]
        have hJ : (joinSpace (ps ++ [List.replicate w '-'])).isEmpty = false := by
          cases hJn : joinSpace (ps ++ [List.replicate w '-']) with
          | nil => rw [hJn] at hJlast; simp at hJlast
          | cons x xs => rfl
        rw [if_neg (show ¬ (joinSpace (ps ++ [List.replicate w '-'])).isEmpty = true by
          rw [hJ]; exact Bool.false_ne_true), hJlast, if_neg hw]
        rfl

theorem noTrail_dashJoin_iff (ws : List Nat) :
    noTrailingSpace (joinSpace (ws.map fun w => List.replicate w '-')) = false ↔
      2 ≤ ws.length ∧ ws.getD (ws.length - 1) 0 = 0 := by
  rcases List.eq_nil_or_concat ws with rfl | ⟨init, a, rfl⟩
  · decide
  · simp only [List.concat_eq_append, List.map_append, List.map_cons, List.map_nil]
    have hget : (init ++ [a]).getD ((init ++ [a]).length - 1) 0 = a := by
      rw [List.getD_eq_get?, List.length_append]
      simp only [List.length_singleton, Nat.add_sub_cancel]
      rw [List.get?_concat_length]
      rfl
    unfold noTrailingSpace
    rw [getLast?_joinSpace_append_run]
    by_cases ha : a = 0
    · subst ha
      rw [if_pos rfl]
      by_cases hinit : init = []
      · subst hinit
        decide
      · have hmapne : ((init.map fun w => List.replicate w '-').isEmpty) = false := by
          cases init with
          | nil => exact absurd rfl hinit
          | cons x t => rfl
        have h1 : 2 ≤ (init ++ [0]).length := by
          rw [List.length_append]
          have := List.length_pos.mpr hinit
          simp
          omega
        simp [hmapne, h1, hget]
        constructor
        · intro _
          have := List.length_pos.mpr hinit
          omega
        · intro _
          decide
    · rw [if_neg ha]
      rw [hget]
      simp [ha]
      decide

theorem noTrail_dashJoin_range_iff (g : Nat → Nat) (n : Nat) :
    noTrailingSpace (joinSpace ((List.range n).map fun c =>
      List.replicate (g c) '-')) = false ↔ 2 ≤ n ∧ g (n - 1) = 0 := by
  have h := noTrail_dashJoin_iff ((List.range n).map g)
  rw [List.map_map] at h
  rw [show ((fun w => List.replicate w '-') ∘ g) = fun c => List.replicate (g c) '-'
    from rfl] at h
  rw [h]
  simp only [List.length_map, List.length_range]
  constructor
  · rintro ⟨h2, hg⟩
    rw [getD_map_range n (n - 1) g 0 (by omega)] at hg
    exact ⟨h2, hg⟩
  · rintro ⟨h2, hg⟩
    refine ⟨h2, ?_⟩
    rw [getD_map_range n (n - 1) g 0 (by omega)]
    exact hg

/-! ## Claim theorems -/

/-- C1: the claim says every line never part of a detected table block — in
particular a Separator Line with zero collected Header Lines — appears in the
output exactly once, at its original relative position.  Evaluating the code
on the single-line input `"-"` (a separator with no header above it) shows the
line is emitted twice: once immediately during the scan (`print(lines[i])` in
the no-header branch) and once again by the final output loop, because the
line was never marked consumed. -/
theorem fmt_c1_no_header_separator_printed_twice :
    run (strLines ["-"]) = strLines ["-", "-"] := by decide

/-- C2: the claim says detected tables never overlap and no later table's
rendered block replaces an earlier one.  On the input
`["AAA  B", "---  -", "a    b", "--"]` the first table consumes indices
0 (header), 1 (separator) and 2 (data); the trailing separator at index 3 then
re-collects the already-consumed lines 0, 1, 2 as its header block, and its
rendered block overwrites the first table's block at the shared anchor
index 0 — the output is the second table's lossy rendering
`["AA", "--", "a", "--"]`, the first table's block
`["AAA B", "--- -", "a   b"]` having been replaced. -/
theorem fmt_c2_tables_overlap_and_block_replaced :
    tablesOf (strLines ["AAA  B", "---  -", "a    b", "--"]) =
      [([0], 1, [2]), ([0, 1, 2], 3, [])] ∧
    run (strLines ["AAA  B", "---  -", "a    b", "--"]) =
      strLines ["AA", "--", "a", "--"] := by decide

/-- C3 (counterexample): the transform is not idempotent.  On
`["xy z.abc", "AA    B", "----- -", "aa    b"]` the first pass shrinks the
columns; on the narrower output the junk line `"xy z.abc"` becomes gap-pure
at the new gap position and is absorbed as an extra header line by the second
pass, which truncates it to `"xy z"`. -/
theorem fmt_c3_not_idempotent_cex :
    run (run (strLines ["xy z.abc", "AA    B", "----- -", "aa    b"])) ≠
      run (strLines ["xy z.abc", "AA    B", "----- -", "aa    b"]) := by decide

/-- C3 (amended): on inputs containing no Separator Line the transform is the
identity, hence idempotent there; in general re-running the transform on its
own output may differ (re-detection can absorb adjacent lines, and a
header-less separator is printed twice). -/
theorem fmt_c3_idempotent_on_dash_free (lines : List (List Char))
    (h : ∀ l ∈ lines, is_dash_line l = false) :
    run lines = lines ∧ run (run lines) = run lines := by
  have hid := run_no_dash lines h
  refine ⟨hid, ?_⟩
  rw [hid]
  exact hid

/-- C3 (witness): the amended idempotence claim at the concrete dash-free
input `["ab", ""]`. -/
theorem fmt_c3_idempotent_on_dash_free_witness :
    run (strLines ["ab", ""]) = strLines ["ab", ""] ∧
    run (run (strLines ["ab", ""])) = run (strLines ["ab", ""]) :=
  fmt_c3_idempotent_on_dash_free (strLines ["ab", ""]) (by decide)

/-- C4: the code's justification detector equals the specification's
description — scan raw cells in row order, skip cells blank after trimming,
return at the first definitive signal (leading>0 and trailing=0 gives right;
trailing>0 and leading=0 gives left; leading>trailing gives right), default
left; once a signal fires no later cell is consulted. -/
theorem fmt_c4_justification_first_signal (vals : List (List Char)) :
    detect_justification vals = detectJustificationSpec vals := by
  induction vals with
  | nil => rfl
  | cons val rest ih =>
      have hl : val.length - (pyLstrip val).length = (val.takeWhile isPySpace).length := by
        unfold pyLstrip
        have hsplit := congrArg List.length (List.takeWhile_append_dropWhile isPySpace val)
        rw [List.length_append] at hsplit
        omega
      have hr : val.length - (pyRstrip val).length =
          (val.reverse.takeWhile isPySpace).length := by
        unfold pyRstrip
        rw [List.length_reverse]
        have hsplit := congrArg List.length
          (List.takeWhile_append_dropWhile isPySpace val.reverse)
        rw [List.length_append] at hsplit
        have hrl : val.reverse.length = val.length := List.length_reverse val
        omega
      simp only [detect_justification, detectJustificationSpec, List.findSome?_cons]
      by_cases hb : (pyStrip val).isEmpty = true
      · have hall : val.all isPySpace = true := by
          rw [List.all_eq_true]
          exact (pyStrip_empty_iff val).mp hb
        have hcell : cellSignalSpec val = none := by
          unfold cellSignalSpec
          rw [if_pos hall]
        simp only [hb, if_true, hcell]
        exact ih
      · have hb' := Bool.eq_false_iff.mpr hb
        have hnall : ¬ val.all isPySpace = true := by
          rw [List.all_eq_true]
          intro hcon
          exact hb ((pyStrip_empty_iff val).mpr hcon)
        simp only [hb', Bool.false_eq_true, if_false]
        have hcell : cellSignalSpec val =
            (if val.length - (pyLstrip val).length > 0 ∧
                val.length - (pyRstrip val).length = 0 then some Justification.right
             else if val.length - (pyRstrip val).length > 0 ∧
                val.length - (pyLstrip val).length = 0 then some Justification.left
             else if val.length - (pyLstrip val).length >
                val.length - (pyRstrip val).length then some Justification.right
             else none) := by
          unfold cellSignalSpec
          rw [if_neg hnall, hl, hr]
        rw [hcell]
        by_cases h1 : val.length - (pyLstrip val).length > 0 ∧
            val.length - (pyRstrip val).length = 0
        · rw [if_pos h1, if_pos h1]
          rfl
        · rw [if_neg h1, if_neg h1]
          by_cases h2 : val.length - (pyRstrip val).length > 0 ∧
              val.length - (pyLstrip val).length = 0
          · rw [if_pos h2, if_pos h2]
            rfl
          · rw [if_neg h2, if_neg h2]
            by_cases h3 : val.length - (pyLstrip val).length >
                val.length - (pyRstrip val).length
            · rw [if_pos h3, if_pos h3]
              rfl
            · rw [if_neg h3, if_neg h3]
              exact ih

/-- C5: for every column index within range, the rendered width computed by
`new_widths` is an upper bound of every header-cell text length and of every
stripped data-cell length for that column (no smaller width would fit the
content), and it is attained by one of them or is zero (no larger width is
ever produced). -/
theorem fmt_c5_width_minimal (header_texts stripped_values : List (List (List Char)))
    (ncols c : Nat) (h : c < ncols) :
    (∀ t ∈ header_texts.getD c [],
      t.length ≤ (new_widths header_texts stripped_values ncols).getD c 0) ∧
    (∀ row ∈ stripped_values,
      (row.getD c []).length ≤ (new_widths header_texts stripped_values ncols).getD c 0) ∧
    ((new_widths header_texts stripped_values ncols).getD c 0 = 0 ∨
      (∃ t ∈ header_texts.getD c [],
        t.length = (new_widths header_texts stripped_values ncols).getD c 0) ∨
      (∃ row ∈ stripped_values,
        (row.getD c []).length = (new_widths header_texts stripped_values ncols).getD c 0)) := by
  have hw : (new_widths header_texts stripped_values ncols).getD c 0 =
      max (maxD0 ((header_texts.getD c []).map List.length))
        (maxD0 (stripped_values.map fun row => (row.getD c []).length)) := by
    unfold new_widths
    exact getD_map_range ncols c _ 0 h
  refine ⟨?_, ?_, ?_⟩
  · intro t ht
    rw [hw]
    exact le_trans (le_maxD0 _ _ (List.mem_map_of_mem List.length ht)) (le_max_left _ _)
  · intro row hrow
    rw [hw]
    exact le_trans
      (le_maxD0 _ _ (List.mem_map_of_mem (fun row => (row.getD c []).length) hrow))
      (le_max_right _ _)
  · rw [hw]
    rcases Nat.eq_zero_or_pos (max (maxD0 ((header_texts.getD c []).map List.length))
      (maxD0 (stripped_values.map fun row => (row.getD c []).length))) with h0 | h0
    · exact Or.inl h0
    · rcases max_choice (maxD0 ((header_texts.getD c []).map List.length))
        (maxD0 (stripped_values.map fun row => (row.getD c []).length)) with hmx | hmx
      · rw [hmx]
        rcases maxD0_attained ((header_texts.getD c []).map List.length) with hz | hmem
        · rw [hmx, hz] at h0
          exact absurd h0 (lt_irrefl 0)
        · rcases List.mem_map.mp hmem with ⟨t, ht, hlen⟩
          exact Or.inr (Or.inl ⟨t, ht, hlen⟩)
      · rw [hmx]
        rcases maxD0_attained (stripped_values.map fun row => (row.getD c []).length)
          with hz | hmem
        · rw [hmx, hz] at h0
          exact absurd h0 (lt_irrefl 0)
        · rcases List.mem_map.mp hmem with ⟨row, hrow, hlen⟩
          exact Or.inr (Or.inr ⟨row, hrow, hlen⟩)

/-- C5 (witness): the width bound at a concrete one-column table with header
text `"A"` and one stripped data cell `"ab"`. -/
theorem fmt_c5_width_minimal_witness :
    (∀ t ∈ ([[['A']]] : List (List (List Char))).getD 0 [],
      t.length ≤ (new_widths [[['A']]] [[['a', 'b']]] 1).getD 0 0) ∧
    (∀ row ∈ ([[['a', 'b']]] : List (List (List Char))),
      (row.getD 0 []).length ≤ (new_widths [[['A']]] [[['a', 'b']]] 1).getD 0 0) ∧
    ((new_widths [[['A']]] [[['a', 'b']]] 1).getD 0 0 = 0 ∨
      (∃ t ∈ ([[['A']]] : List (List (List Char))).getD 0 [],
        t.length = (new_widths [[['A']]] [[['a', 'b']]] 1).getD 0 0) ∨
      (∃ row ∈ ([[['a', 'b']]] : List (List (List Char))),
        (row.getD 0 []).length = (new_widths [[['A']]] [[['a', 'b']]] 1).getD 0 0)) :=
  fmt_c5_width_minimal [[['A']]] [[['a', 'b']]] 1 0 (by decide)

/-- C6 (counterexample): the claim says every rendered table line, the
separator line included, has all trailing whitespace removed.  On
`["A", "- --", "a"]` the second column's width shrinks to zero, and the
rendered separator line is `"- "` — it keeps a trailing space because the
code joins the dash runs without `rstrip`. -/
theorem fmt_c6_separator_trailing_space_cex :
    run (strLines ["A", "- --", "a"]) = strLines ["A", "- ", "a"] ∧
    noTrailingSpace ((run (strLines ["A", "- --", "a"])).getD 1 []) = false := by decide

set_option maxHeartbeats 1600000 in
/-- C6 (amended): in both renderers — the data-table renderer `process_table`
and the header-only renderer `render_header_only` — every rendered header line
and data line is the one-space join (`joinSpace`) of its row of per-column
cells (one cell per detected column) with all trailing whitespace removed,
while the rendered separator line is the one-space join of the per-column dash
runs without right-trimming; the separator therefore ends in trailing
whitespace exactly when the table has at least two columns and the last
column's rendered width is zero. -/
theorem fmt_c6_render_join_rstrip (lines : List (List Char)) (header_indices : List Nat)
    (dash_line_idx : Nat) (data_lines : List (List Char)) (columns : List (Nat × Nat)) :
    (∃ hcells dcells : List (List (List Char)),
      hcells.length = header_indices.length ∧
      dcells.length = data_lines.length ∧
      (∀ parts ∈ hcells, parts.length = columns.length) ∧
      (∀ parts ∈ dcells, parts.length = columns.length) ∧
      process_table lines header_indices dash_line_idx data_lines columns =
        (hcells.map fun parts => pyRstrip (joinSpace parts)) ++
          joinSpace ((List.range columns.length).map fun c =>
            List.replicate ((new_widths
              (extract_multiline_headers lines header_indices columns)
              ((data_lines.map fun line => columns.map fun cc =>
                extract_value line cc.1 cc.2).map fun row => row.map pyStrip)
              columns.length).getD c 0) '-') ::
          (dcells.map fun parts => pyRstrip (joinSpace parts)) ∧
      (∀ l ∈ hcells.map fun parts => pyRstrip (joinSpace parts),
        noTrailingSpace l = true) ∧
      (∀ l ∈ dcells.map fun parts => pyRstrip (joinSpace parts),
        noTrailingSpace l = true)) ∧
    (∃ hcells : List (List (List Char)),
      hcells.length = header_indices.length ∧
      (∀ parts ∈ hcells, parts.length = columns.length) ∧
      render_header_only lines header_indices columns =
        (hcells.map fun parts => pyRstrip (joinSpace parts)) ++
          [joinSpace (((extract_multiline_headers lines header_indices columns).map
            fun col_texts => maxD0 (col_texts.map List.length)).map fun w =>
              List.replicate w '-')] ∧
      (∀ l ∈ hcells.map fun parts => pyRstrip (joinSpace parts),
        noTrailingSpace l = true)) ∧
    (noTrailingSpace (joinSpace ((List.range columns.length).map fun c =>
        List.replicate ((new_widths
          (extract_multiline_headers lines header_indices columns)
          ((data_lines.map fun line => columns.map fun cc =>
            extract_value line cc.1 cc.2).map fun row => row.map pyStrip)
          columns.length).getD c 0) '-')) = false ↔
      2 ≤ columns.length ∧
        (new_widths (extract_multiline_headers lines header_indices columns)
          ((data_lines.map fun line => columns.map fun cc =>
            extract_value line cc.1 cc.2).map fun row => row.map pyStrip)
          columns.length).getD (columns.length - 1) 0 = 0) ∧
    (noTrailingSpace (joinSpace
        (((extract_multiline_headers lines header_indices columns).map
          fun col_texts => maxD0 (col_texts.map List.length)).map fun w =>
            List.replicate w '-')) = false ↔
      2 ≤ columns.length ∧
        ((extract_multiline_headers lines header_indices columns).map
          fun col_texts => maxD0 (col_texts.map List.length)).getD
          (columns.length - 1) 0 = 0) := by
  refine ⟨?_, ?_, ?_, ?_⟩
  · refine ⟨(List.range header_indices.length).map fun li =>
        (List.range columns.length).map fun c =>
          ljust (((extract_multiline_headers lines header_indices columns).getD c
            []).getD li [])
            ((new_widths (extract_multiline_headers lines header_indices columns)
              ((data_lines.map fun line => columns.map fun cc =>
                extract_value line cc.1 cc.2).map fun row => row.map pyStrip)
              columns.length).getD c 0),
      ((data_lines.map fun line => columns.map fun cc =>
        extract_value line cc.1 cc.2).map fun row => row.map pyStrip).map fun row =>
        (List.range row.length).map fun i =>
          if ((List.range columns.length).map fun c => detect_justification
              ((data_lines.map fun line => columns.map fun cc =>
                extract_value line cc.1 cc.2).map fun row => row.getD c [])).getD i
              Justification.left = Justification.right then
            rjust (row.getD i [])
              ((new_widths (extract_multiline_headers lines header_indices columns)
                ((data_lines.map fun line => columns.map fun cc =>
                  extract_value line cc.1 cc.2).map fun row => row.map pyStrip)
                columns.length).getD i 0)
          else
            ljust (row.getD i [])
              ((new_widths (extract_multiline_headers lines header_indices columns)
                ((data_lines.map fun line => columns.map fun cc =>
                  extract_value line cc.1 cc.2).map fun row => row.map pyStrip)
                columns.length).getD i 0),
      ?_, ?_, ?_, ?_, ?_, ?_, ?_⟩
    · simp
    · simp
    · intro parts hp
      rcases List.mem_map.mp hp with ⟨li, -, rfl⟩
      simp
    · intro parts hp
      rcases List.mem_map.mp hp with ⟨row, hrow, rfl⟩
      rcases List.mem_map.mp hrow with ⟨r, hr, rfl⟩
      rcases List.mem_map.mp hr with ⟨line, -, rfl⟩
      simp
    · simp only [process_table, List.map_map]
      rfl
    · intro l hl
      rcases List.mem_map.mp hl with ⟨parts, -, rfl⟩
      exact noTrail_pyRstrip _
    · intro l hl
      rcases List.mem_map.mp hl with ⟨parts, -, rfl⟩
      exact noTrail_pyRstrip _
  · refine ⟨(List.range header_indices.length).map fun li =>
        (List.range columns.length).map fun c =>
          ljust (((extract_multiline_headers lines header_indices columns).getD c
            []).getD li [])
            (((extract_multiline_headers lines header_indices columns).map
              fun col_texts => maxD0 (col_texts.map List.length)).getD c 0),
      ?_, ?_, ?_, ?_⟩
    · simp
    · intro parts hp
      rcases List.mem_map.mp hp with ⟨li, -, rfl⟩
      simp
    · simp only [render_header_only, List.map_map]
      rfl
    · intro l hl
      rcases List.mem_map.mp hl with ⟨parts, -, rfl⟩
      exact noTrail_pyRstrip _
  · exact noTrail_dashJoin_range_iff (fun c =>
      (new_widths (extract_multiline_headers lines header_indices columns)
        ((data_lines.map fun line => columns.map fun cc =>
          extract_value line cc.1 cc.2).map fun row => row.map pyStrip)
        columns.length).getD c 0) columns.length
  · have hlen : ((extract_multiline_headers lines header_indices columns).map
        fun col_texts => maxD0 (col_texts.map List.length)).length = columns.length := by
      simp [extract_multiline_headers]
    have h := noTrail_dashJoin_iff
      ((extract_multiline_headers lines header_indices columns).map
        fun col_texts => maxD0 (col_texts.map List.length))
    rw [hlen] at h
    exact h

/-- C7: header collection returns exactly the contiguous block of indices
immediately above the separator, in top-to-bottom order, whose lines all
satisfy the spec's acceptance test (non-blank and every gap-span position
within the line's length is a space), and the walk stops at the first line
failing that test or at the start of input. -/
theorem fmt_c7_header_collection (lines : List (List Char)) (dash_line_idx : Nat)
    (columns : List (Nat × Nat)) :
    ∃ s, s ≤ dash_line_idx ∧
      collect_header_lines lines dash_line_idx columns =
        List.range' s (dash_line_idx - s) ∧
      (∀ i, s ≤ i → i < dash_line_idx →
        HeaderAccept (lines.getD i []) (find_gaps columns)) ∧
      (s = 0 ∨ ¬ HeaderAccept (lines.getD (s - 1) []) (find_gaps columns)) := by
  rcases collectHeaderAux_spec lines (find_gaps columns) dash_line_idx with
    ⟨s, hs, heq, hall, hstop⟩
  refine ⟨s, hs, ?_, ?_, ?_⟩
  · unfold collect_header_lines
    rw [heq, List.reverse_reverse]
  · intro i h1 h2
    exact (acceptB_iff _ _).mp (hall i h1 h2)
  · rcases hstop with h | h
    · exact Or.inl h
    · refine Or.inr fun hacc => ?_
      rw [← acceptB_iff] at hacc
      rw [h] at hacc
      exact Bool.noConfusion hacc

/-- C8: a line is a Separator Line exactly when it is non-blank, every
character is `'-'` or `' '`, and at least one `'-'` occurs. -/
theorem fmt_c8_dash_line_iff (line : List Char) :
    is_dash_line line = true ↔
      (∃ c ∈ line, isPySpace c = false) ∧ (∀ c ∈ line, c = '-' ∨ c = ' ') ∧ '-' ∈ line := by
  unfold is_dash_line
  by_cases hb : (line.isEmpty || (pyStrip line).isEmpty) = true
  · rw [if_pos hb]
    simp only [Bool.false_eq_true, false_iff]
    rintro ⟨⟨c, hc, hcs⟩, -, -⟩
    rw [Bool.or_eq_true] at hb
    rcases hb with hb | hb
    · rw [List.isEmpty_iff] at hb
      subst hb
      exact absurd hc (List.not_mem_nil c)
    · have hsp := (pyStrip_empty_iff line).mp hb c hc
      rw [hsp] at hcs
      exact Bool.noConfusion hcs
  · rw [if_neg hb]
    rw [Bool.or_eq_true] at hb
    push_neg at hb
    rw [Bool.and_eq_true, List.all_eq_true]
    constructor
    · rintro ⟨hall, hcont⟩
      refine ⟨?_, ?_, ?_⟩
      · exact (not_blank_iff line).mp (Bool.eq_false_iff.mpr hb.2)
      · intro c hc
        have := hall c hc
        simpa using this
      · simpa using hcont
    · rintro ⟨-, hall, hmem⟩
      constructor
      · intro c hc
        have := hall c hc
        simpa using this
      · simpa using hmem

/-- C9: the transform is total and takes no error branch — the checked mirror
of the whole program, in which every list indexing of the Python source is
performed through `List.get?`, always succeeds and returns exactly the
transform's output. -/
theorem fmt_c9_total_no_error (lines : List (List Char)) :
    runChk lines = some (run lines) := by
  unfold runChk run
  rw [scanChk_eq lines lines.length 0 initScan]
  rfl

/-- C10: when the column locator yields exactly one Column Span, the gap list
is empty, every line passes the gap-purity check vacuously, and header
collection consumes exactly the contiguous block of non-blank lines above the
separator (up to the first blank line or the start of input), regardless of
content. -/
theorem fmt_c10_single_column_headers (lines : List (List Char))
    (dash_line_idx a b : Nat) :
    find_gaps [(a, b)] = [] ∧
    (∀ l, is_valid_header_line l (find_gaps [(a, b)]) = true) ∧
    (∃ s, s ≤ dash_line_idx ∧
      collect_header_lines lines dash_line_idx [(a, b)] =
        List.range' s (dash_line_idx - s) ∧
      (∀ i, s ≤ i → i < dash_line_idx → ∃ c ∈ lines.getD i [], isPySpace c = false) ∧
      (s = 0 ∨ ∀ c ∈ lines.getD (s - 1) [], isPySpace c = true)) := by
  refine ⟨rfl, fun l => rfl, ?_⟩
  rcases collectHeaderAux_spec lines (find_gaps [(a, b)]) dash_line_idx with
    ⟨s, hs, heq, hall, hstop⟩
  refine ⟨s, hs, ?_, ?_, ?_⟩
  · unfold collect_header_lines
    rw [heq, List.reverse_reverse]
  · intro i h1 h2
    exact ((acceptB_iff _ _).mp (hall i h1 h2)).1
  · rcases hstop with h | h
    · exact Or.inl h
    · refine Or.inr ?_
      unfold acceptB at h
      have hv : is_valid_header_line (lines.getD (s - 1) []) (find_gaps [(a, b)]) = true := rfl
      rw [hv, Bool.and_true, Bool.not_eq_false'] at h
      exact (pyStrip_empty_iff _).mp h
